import Mathlib

/-!
Verification of the entityx Python binding layer (`entityx/__init__.py`)
against its specification.

The Python layer in the repository drives a C++ entity-component core
exposed as the `_entityx` module: an entity manager (create / destroy /
validity, per-type component stores) and an event manager.  That core is
not part of the Python sources, so its operations are modelled here from
the specification; the Python-side logic (`Component._build`,
`EntityMetaClass.__new__`, `Entity.__new__`, `Entity._from_raw_entity`,
`emit`) is embedded directly from the source file.

Component records are given explicit identities (`cid` values allocated
by a counter) so that "same underlying record" is expressible, matching
Python object identity.  Tables that Python keeps as dicts are modelled
as insertion-ordered association lists.
-/

namespace EntityX

/-- Pointwise update of a function, used for the version table, the live
bits, the component store and the record heap. -/
def fupd {κ : Type} {α : Type} [DecidableEq κ] (f : κ → α) (k : κ) (v : α) : κ → α :=
  fun j => if j = k then v else f j

/-- Modelled from the spec: an entity handle is an (index, version) pair;
the index is dense and reused, the version increments on each recycle of
the index. -/
structure EntityId where
  index : Nat
  version : Nat
deriving DecidableEq, Repr

/-- Modelled from the spec: the single combined integer id exposed by the
C++ `Entity::Id` (`_entity.id` in the tests) is a packed encoding of the
(index, version) pair with the index in the low 32 bits and the version
in the high bits. -/
def EntityId.combined (eid : EntityId) : Nat :=
  eid.index + eid.version * 2 ^ 32

/-- A component record: its component-type identity and its field values
(`Position.x` is field 0, `Position.y` field 1, and so on). -/
structure Comp where
  ctype : Nat
  fields : Nat → Int

/-- Modelled from the spec: the state owned by the C++ entity manager
(`_entityx._entity_manager`) — the never-used-index counter, the version
table, the live bits, the free-index pool, and the component stores.
The stores are collapsed into one map keyed by (entity index, component
type); records live in a heap addressed by identity (`cid`), matching
Python object identity, with `nextCid` the allocation counter. -/
structure Manager where
  counter : Nat
  versionOf : Nat → Nat
  aliveAt : Nat → Bool
  freeList : List Nat
  store : Nat × Nat → Option Nat
  heap : Nat → Comp
  nextCid : Nat

/-- The manager before any entity has been created. -/
def Manager.start : Manager :=
  ⟨0, fun _ => 0, fun _ => false, [], fun _ => none, fun _ => ⟨0, fun _ => 0⟩, 0⟩

/-- Modelled from the spec: `valid(id)` is true iff the index is
currently live and the version matches the version table. -/
def Manager.valid (m : Manager) (eid : EntityId) : Bool :=
  m.aliveAt eid.index && (m.versionOf eid.index == eid.version)

/-- Modelled from the spec: `create()` pops a recycled index from the
free pool when it is non-empty, else takes the next never-used index;
marks it live and returns it with its current version (0 for a
never-used index starting from `Manager.start`). -/
def Manager.create (m : Manager) : Manager × EntityId :=
  match m.freeList with
  | i :: rest =>
      ({ m with freeList := rest, aliveAt := fupd m.aliveAt i true },
       ⟨i, m.versionOf i⟩)
  | [] =>
      ({ m with counter := m.counter + 1, aliveAt := fupd m.aliveAt m.counter true },
       ⟨m.counter, m.versionOf m.counter⟩)

/-- Modelled from the spec: `destroy(id)` fails (here: `none`) when the
id is stale; on success it clears every component store entry for the
index, increments the version for that index, clears the live bit and
pushes the index onto the free pool. -/
def Manager.destroy (m : Manager) (eid : EntityId) : Option Manager :=
  if m.valid eid then
    some { m with
      versionOf := fupd m.versionOf eid.index (m.versionOf eid.index + 1),
      aliveAt := fupd m.aliveAt eid.index false,
      freeList := eid.index :: m.freeList,
      store := fun j => if j.1 = eid.index then none else m.store j }
  else none

/-- Modelled from the spec: `get_component` looks up the record (by
identity) attached to the entity for the given component type.  Staleness
errors are out of scope here; theorems restrict to valid ids. -/
def Manager.getComp (m : Manager) (eid : EntityId) (ct : Nat) : Option Nat :=
  m.store (eid.index, ct)

/-- Modelled from the spec: constructing a component record
(`self._cls(*args)`) allocates a fresh identity and stores the
constructor arguments as the field values. -/
def Manager.construct (m : Manager) (ct : Nat) (args : List Int) : Manager × Nat :=
  ({ m with heap := fupd m.heap m.nextCid ⟨ct, fun i => args.getD i 0⟩,
            nextCid := m.nextCid + 1 },
   m.nextCid)

/-- Modelled from the spec: `assign_to` / `attach_component` writes the
record into the store for (entity index, component type), overwriting
any existing entry of that type (last-write-wins). -/
def Manager.attachCid (m : Manager) (eid : EntityId) (ct cid : Nat) : Manager :=
  { m with store := fupd m.store (eid.index, ct) (some cid) }

/-- Reading a field of a component record through its identity. -/
def Manager.readField (m : Manager) (cid f : Nat) : Int :=
  (m.heap cid).fields f

/-- Mutating a field of a component record in place through its identity
(`self.position.x = v`). -/
def Manager.writeField (m : Manager) (cid f : Nat) (v : Int) : Manager :=
  { m with heap := fupd m.heap cid ⟨(m.heap cid).ctype, fupd (m.heap cid).fields f v⟩ }

/-- `Component(cls, *args)` from the source: a binding descriptor holding
the component class and the stored default construction arguments. -/
structure Binding where
  cls : Nat
  args : List Int
deriving DecidableEq, Repr

/-- `Component._build` from the source: fetch the entity's component of
the bound type; only if there is none, construct one with the stored
default arguments and attach it. -/
def Binding.build (b : Binding) (m : Manager) (eid : EntityId) : Manager × Nat :=
  match m.getComp eid b.cls with
  | some cid => (m, cid)
  | none =>
      let mc := m.construct b.cls b.args
      (mc.1.attachCid eid b.cls mc.2, mc.2)

/-- `d[k] = v` on an insertion-ordered dict: replace in place when the
key is present, else append. -/
def assocSet {α β : Type} [DecidableEq α] : List (α × β) → α → β → List (α × β)
  | [], k, v => [(k, v)]
  | (k1, v1) :: rest, k, v =>
      if k1 = k then (k, v) :: rest else (k1, v1) :: assocSet rest k v

/-- `d.get(k)` on an insertion-ordered dict (first matching key). -/
def lookupAssoc {α β : Type} [DecidableEq α] : List (α × β) → α → Option β
  | [], _ => none
  | (k1, v1) :: rest, k => if k1 = k then some v1 else lookupAssoc rest k

/-- `d.update(e)` on insertion-ordered dicts. -/
def dictUpdate {α β : Type} [DecidableEq α] (d e : List (α × β)) : List (α × β) :=
  e.foldl (fun acc kv => assocSet acc kv.1 kv.2) d

/-- An entity type: its merged `_components` table, stored at
type-definition time. -/
structure EntityType where
  components : List (String × Binding)

/-- `EntityMetaClass.__new__` from the source: at class-creation time,
start from an empty dict, fold in each base class's `_components`, then
overlay the bindings declared in the class body.  The merged table is
stored on the type; instance construction only reads it. -/
def defineEntityType (bases : List EntityType) (own : List (String × Binding)) : EntityType :=
  ⟨dictUpdate ((bases.map EntityType.components).foldl dictUpdate []) own⟩

/-- An entity wrapper instance: the bound entity id and the instance
attributes set by `Entity.__new__` (binding name → component identity). -/
structure Wrapper where
  entityId : EntityId
  attrs : List (String × Nat)

/-- The loop body of `Entity.__new__`: for each entry of the merged
`_components` table, `setattr(self, k, v._build(self._entity_id))`. -/
def buildAll (m : Manager) (eid : EntityId) : List (String × Binding) → Manager × List (String × Nat)
  | [] => (m, [])
  | kb :: rest =>
      let r := kb.2.build m eid
      let rr := buildAll r.1 eid rest
      (rr.1, (kb.1, r.2) :: rr.2)

/-- `Entity.__new__` from the source: pop `entity_id` from the keyword
arguments; when absent, allocate via `_entity_manager.configure`
(modelled as `create`); bind the wrapper to the id and build every
binding of the type's merged `_components` table. -/
def EntityType.new (t : EntityType) (m : Manager) (eido : Option EntityId) : Manager × Wrapper :=
  let p : Manager × EntityId :=
    match eido with
    | some eid => (m, eid)
    | none => m.create
  let r := buildAll p.1 p.2 t.components
  (r.1, ⟨p.2, r.2⟩)

/-- `Entity._from_raw_entity` from the source: construct the wrapper
around the raw entity id supplied by the host (the user `__init__` that
follows touches no manager id bookkeeping by itself). -/
def EntityType.fromRawEntity (t : EntityType) (m : Manager) (eid : EntityId) : Manager × Wrapper :=
  t.new m (some eid)

/-- Concrete fixture: the manager after one `create()` on the fresh
manager (owns entity (0,0), no components attached). -/
def mgr1 : Manager :=
  (Manager.start.create).1

/-- Concrete fixture: the id returned by the first `create()`. -/
def eid1 : EntityId :=
  (Manager.start.create).2

/-- Concrete fixture: the `Component(Position, 1, 2)` binding of the
create-entities test, with `Position` as component type 1. -/
def posBinding : Binding :=
  ⟨1, [1, 2]⟩

/-- Concrete fixture: an entity type declaring the single binding
`position = Component(Position, 1, 2)`. -/
def testType : EntityType :=
  ⟨[("position", posBinding)]⟩

/-- Concrete fixture: an entity type declaring two binding names for the
same component type, as in `DeepSubclassTest2` (`position`, `position2`
both `Component(Position)`). -/
def dupType : EntityType :=
  ⟨[("position", posBinding), ("position2", posBinding)]⟩

/-- Modelled from the spec: the event manager's dispatch table — the
registered (event type, receiver) pairs in registration order. -/
structure EventBus where
  subs : List (Nat × Nat)

/-- Modelled from the spec: `subscribe` appends the receiver to the
table for the event type. -/
def EventBus.subscribe (bus : EventBus) (et r : Nat) : EventBus :=
  ⟨bus.subs ++ [(et, r)]⟩

/-- Modelled from the spec: `unsubscribe` removes the receiver's
registration for the event type; a no-op when absent. -/
def EventBus.unsubscribe (bus : EventBus) (et r : Nat) : EventBus :=
  ⟨bus.subs.filter (fun p => !(p.1 == et && p.2 == r))⟩

/-- Walk the registration list and invoke the receivers registered for
exactly the emitted event type, in order. -/
def dispatchTo : List (Nat × Nat) → Nat → List Nat
  | [], _ => []
  | (t, r) :: rest, et =>
      if t = et then r :: dispatchTo rest et else dispatchTo rest et

/-- `emit` from the source delegates to the C++ event manager; modelled
from the spec: dispatch the event synchronously to the receivers
registered for its type, in registration order, returning the invocation
sequence. -/
def EventBus.emit (bus : EventBus) (et : Nat) : List Nat :=
  dispatchTo bus.subs et

/-- Concrete fixture: receivers 1, 2, 3 subscribed in that order to
event type 0. -/
def busFix : EventBus :=
  ⟨[(0, 1), (0, 2), (0, 3)]⟩

end EntityX

namespace EntityX

/-! ### Helper lemmas -/

@[simp]
theorem fupd_same {κ α : Type} [DecidableEq κ] (f : κ → α) (k : κ) (v : α) :
    fupd f k v k = v := by
  simp [fupd]

theorem fupd_ne {κ α : Type} [DecidableEq κ] (f : κ → α) (k j : κ) (v : α) (h : j ≠ k) :
    fupd f k v j = f j := by
  simp [fupd, h]

/-! ### Claim C3: create / destroy / create index reuse and version bump -/

/-- C3: for every manager state, in the sequence `create(); destroy(first);
create()` the destroy succeeds, the second created id has the same index
as the first and a strictly greater version, the two ids are unequal, and
validity checking of the first id after the second create returns false. -/
theorem create_destroy_create_recycles (m : Manager) :
    ∃ m2 : Manager,
      ((m.create).1.destroy (m.create).2 = some m2) ∧
      ((m2.create).2.index = (m.create).2.index) ∧
      ((m.create).2.version < (m2.create).2.version) ∧
      ((m.create).2 ≠ (m2.create).2) ∧
      ((m2.create).1.valid (m.create).2 = false) := by
  cases hf : m.freeList with
  | cons i rest =>
      refine ⟨{ m with
          versionOf := fupd m.versionOf i (m.versionOf i + 1),
          aliveAt := fupd (fupd m.aliveAt i true) i false,
          freeList := i :: rest,
          store := fun j => if j.1 = i then none else m.store j }, ?_, ?_, ?_, ?_, ?_⟩
      · simp [Manager.create, hf, Manager.destroy, Manager.valid, fupd]
      · simp [Manager.create, hf, Manager.destroy, Manager.valid, fupd]
      · simp [Manager.create, hf, Manager.destroy, Manager.valid, fupd]
      · simp [Manager.create, hf, Manager.destroy, Manager.valid, fupd]
      · simp [Manager.create, hf, Manager.destroy, Manager.valid, fupd]
  | nil =>
      refine ⟨{ m with
          counter := m.counter + 1,
          versionOf := fupd m.versionOf m.counter (m.versionOf m.counter + 1),
          aliveAt := fupd (fupd m.aliveAt m.counter true) m.counter false,
          freeList := [m.counter],
          store := fun j => if j.1 = m.counter then none else m.store j }, ?_, ?_, ?_, ?_, ?_⟩
      · simp [Manager.create, hf, Manager.destroy, Manager.valid, fupd]
      · simp [Manager.create, hf, Manager.destroy, Manager.valid, fupd]
      · simp [Manager.create, hf, Manager.destroy, Manager.valid, fupd]
      · simp [Manager.create, hf, Manager.destroy, Manager.valid, fupd]
      · simp [Manager.create, hf, Manager.destroy, Manager.valid, fupd]

/-! ### Claim C7: the combined id is a packed (index, version) encoding -/

/-- C7: the combined integer id packs exactly the (index, version) pair:
its low 32 bits are the index, the remaining high bits are the version,
ordering of combined ids with equal index is ordering by version (so a
recycled id compares strictly greater than the stale id it replaces),
and two ids are equal iff their combined encodings are. -/
theorem combined_id_packs_index_version (eid1 eid2 : EntityId)
    (h1 : eid1.index < 2 ^ 32) (h2 : eid2.index < 2 ^ 32) :
    (eid1.combined % 2 ^ 32 = eid1.index) ∧
    (eid1.combined / 2 ^ 32 = eid1.version) ∧
    (eid1.index = eid2.index →
      (eid1.combined < eid2.combined ↔ eid1.version < eid2.version)) ∧
    (eid1.combined = eid2.combined ↔ eid1 = eid2) := by
  have hN : (2 : Nat) ^ 32 = 4294967296 := by norm_num
  obtain ⟨i1, v1⟩ := eid1
  obtain ⟨i2, v2⟩ := eid2
  simp only [EntityId.combined, EntityId.mk.injEq, hN] at h1 h2 ⊢
  omega

/-- Witness for the packed-id theorem at the two ids of the index-reuse
scenario (stale id (0,0), recycled id (0,1)). -/
theorem combined_id_packs_index_version_witness :
    ((⟨0, 0⟩ : EntityId).index < 2 ^ 32) ∧ ((⟨0, 1⟩ : EntityId).index < 2 ^ 32) ∧
    (((⟨0, 0⟩ : EntityId).combined % 2 ^ 32 = (⟨0, 0⟩ : EntityId).index) ∧
     ((⟨0, 0⟩ : EntityId).combined / 2 ^ 32 = (⟨0, 0⟩ : EntityId).version) ∧
     ((⟨0, 0⟩ : EntityId).index = (⟨0, 1⟩ : EntityId).index →
       ((⟨0, 0⟩ : EntityId).combined < (⟨0, 1⟩ : EntityId).combined ↔
        (⟨0, 0⟩ : EntityId).version < (⟨0, 1⟩ : EntityId).version)) ∧
     ((⟨0, 0⟩ : EntityId).combined = (⟨0, 1⟩ : EntityId).combined ↔
      (⟨0, 0⟩ : EntityId) = (⟨0, 1⟩ : EntityId))) :=
  ⟨by decide, by decide,
   combined_id_packs_index_version ⟨0, 0⟩ ⟨0, 1⟩ (by decide) (by decide)⟩

end EntityX

namespace EntityX

/-! ### Lemmas about `Component._build` -/

theorem fupd_comm {κ α : Type} [DecidableEq κ] (f : κ → α) (k1 k2 : κ) (v1 v2 : α)
    (h : k1 ≠ k2) (j : κ) :
    fupd (fupd f k1 v1) k2 v2 j = fupd (fupd f k2 v2) k1 v1 j := by
  by_cases h1 : j = k1 <;> by_cases h2 : j = k2 <;> simp_all [fupd]

theorem build_of_found (b : Binding) (m : Manager) (eid : EntityId) (cid : Nat)
    (h : m.getComp eid b.cls = some cid) : b.build m eid = (m, cid) := by
  simp [Binding.build, h]

theorem build_of_absent (b : Binding) (m : Manager) (eid : EntityId)
    (h : m.getComp eid b.cls = none) :
    b.build m eid =
      ({ m with heap := fupd m.heap m.nextCid ⟨b.cls, fun i => b.args.getD i 0⟩,
                nextCid := m.nextCid + 1,
                store := fupd m.store (eid.index, b.cls) (some m.nextCid) }, m.nextCid) := by
  simp [Binding.build, h, Manager.construct, Manager.attachCid]

theorem build_getComp_result (b : Binding) (m : Manager) (eid : EntityId) :
    ((b.build m eid).1).getComp eid b.cls = some (b.build m eid).2 := by
  cases h : m.getComp eid b.cls with
  | some cid => simp [build_of_found b m eid cid h, h]
  | none => simp [build_of_absent b m eid h, Manager.getComp]

theorem build_store_stable (b : Binding) (m : Manager) (eid : EntityId)
    (key : Nat × Nat) (cid : Nat) (h : m.store key = some cid) :
    (b.build m eid).1.store key = some cid := by
  cases hg : m.getComp eid b.cls with
  | some c => simp [build_of_found b m eid c hg, h]
  | none =>
      rw [build_of_absent b m eid hg]
      by_cases hk : key = (eid.index, b.cls)
      · rw [Manager.getComp] at hg
        rw [hk] at h
        rw [hg] at h
        cases h
      · show fupd m.store (eid.index, b.cls) (some m.nextCid) key = some cid
        rw [fupd_ne _ _ _ _ hk]
        exact h

theorem build_store_frame (b : Binding) (m : Manager) (eid : EntityId)
    (key : Nat × Nat) (h : key.2 ≠ b.cls) :
    (b.build m eid).1.store key = m.store key := by
  cases hg : m.getComp eid b.cls with
  | some c => simp [build_of_found b m eid c hg]
  | none =>
      rw [build_of_absent b m eid hg]
      show fupd m.store (eid.index, b.cls) (some m.nextCid) key = m.store key
      exact fupd_ne _ _ _ _ (fun hk => h (congrArg Prod.snd hk))

theorem build_heap_frame (b : Binding) (m : Manager) (eid : EntityId)
    (c : Nat) (h : c < m.nextCid) :
    (b.build m eid).1.heap c = m.heap c := by
  cases hg : m.getComp eid b.cls with
  | some cid => simp [build_of_found b m eid cid hg]
  | none =>
      rw [build_of_absent b m eid hg]
      show fupd m.heap m.nextCid _ c = m.heap c
      exact fupd_ne _ _ _ _ (Nat.ne_of_lt h)

theorem build_nextCid_mono (b : Binding) (m : Manager) (eid : EntityId) :
    m.nextCid ≤ (b.build m eid).1.nextCid := by
  cases hg : m.getComp eid b.cls with
  | some cid => simp [build_of_found b m eid cid hg]
  | none => rw [build_of_absent b m eid hg]; exact Nat.le_succ _

theorem build_bookkeeping (b : Binding) (m : Manager) (eid : EntityId) :
    ((b.build m eid).1.counter = m.counter) ∧
    ((b.build m eid).1.versionOf = m.versionOf) ∧
    ((b.build m eid).1.aliveAt = m.aliveAt) ∧
    ((b.build m eid).1.freeList = m.freeList) := by
  cases hg : m.getComp eid b.cls with
  | some cid => simp [build_of_found b m eid cid hg]
  | none => rw [build_of_absent b m eid hg]; exact ⟨rfl, rfl, rfl, rfl⟩

theorem build_valid_frame (b : Binding) (m : Manager) (eid e : EntityId) :
    (b.build m eid).1.valid e = m.valid e := by
  obtain ⟨-, h2, h3, -⟩ := build_bookkeeping b m eid
  simp [Manager.valid, h2, h3]

/-! ### Lemmas about the `Entity.__new__` build loop -/

theorem buildAll_store_stable (comps : List (String × Binding)) (m : Manager)
    (eid : EntityId) (key : Nat × Nat) (cid : Nat) (h : m.store key = some cid) :
    (buildAll m eid comps).1.store key = some cid := by
  induction comps generalizing m with
  | nil => simpa [buildAll] using h
  | cons kb rest ih =>
      simp only [buildAll]
      exact ih _ (build_store_stable kb.2 m eid key cid h)

theorem buildAll_nextCid_mono (comps : List (String × Binding)) (m : Manager)
    (eid : EntityId) :
    m.nextCid ≤ (buildAll m eid comps).1.nextCid := by
  induction comps generalizing m with
  | nil => simp [buildAll]
  | cons kb rest ih =>
      simp only [buildAll]
      exact le_trans (build_nextCid_mono kb.2 m eid) (ih _)

theorem buildAll_heap_frame (comps : List (String × Binding)) (m : Manager)
    (eid : EntityId) (c : Nat) (h : c < m.nextCid) :
    (buildAll m eid comps).1.heap c = m.heap c := by
  induction comps generalizing m with
  | nil => simp [buildAll]
  | cons kb rest ih =>
      simp only [buildAll]
      rw [ih _ (lt_of_lt_of_le h (build_nextCid_mono kb.2 m eid))]
      exact build_heap_frame kb.2 m eid c h

theorem buildAll_bookkeeping (comps : List (String × Binding)) (m : Manager)
    (eid : EntityId) :
    ((buildAll m eid comps).1.counter = m.counter) ∧
    ((buildAll m eid comps).1.versionOf = m.versionOf) ∧
    ((buildAll m eid comps).1.aliveAt = m.aliveAt) ∧
    ((buildAll m eid comps).1.freeList = m.freeList) := by
  induction comps generalizing m with
  | nil => simp [buildAll]
  | cons kb rest ih =>
      simp only [buildAll]
      obtain ⟨a1, a2, a3, a4⟩ := build_bookkeeping kb.2 m eid
      obtain ⟨b1, b2, b3, b4⟩ := ih (kb.2.build m eid).1
      exact ⟨b1.trans a1, b2.trans a2, b3.trans a3, b4.trans a4⟩

theorem buildAll_names (comps : List (String × Binding)) (m : Manager)
    (eid : EntityId) :
    (buildAll m eid comps).2.map Prod.fst = comps.map Prod.fst := by
  induction comps generalizing m with
  | nil => simp [buildAll]
  | cons kb rest ih => simp [buildAll, ih]

end EntityX

namespace EntityX

theorem buildAll_cid_in_store (comps : List (String × Binding)) (m : Manager)
    (eid : EntityId) (i : Nat) (hi : i < comps.length) :
    (buildAll m eid comps).1.store (eid.index, (comps.getD i ("", ⟨0, []⟩)).2.cls) =
      some ((buildAll m eid comps).2.getD i ("", 0)).2 := by
  induction comps generalizing m i with
  | nil => cases hi
  | cons kb rest ih =>
      cases i with
      | zero =>
          simp only [buildAll, List.getD_cons_zero]
          exact buildAll_store_stable rest _ eid _ _ (build_getComp_result kb.2 m eid)
      | succ n =>
          simp only [buildAll, List.getD_cons_succ]
          exact ih _ n (Nat.lt_of_succ_lt_succ hi)

/-! ### Claim C1: binding resolution is get-or-create -/

/-- C1: resolving a binding constructs a new component with the stored
default arguments and attaches it only when the entity owns no component
of the bound type; when one is already attached it is fetched and
returned unmodified, with no construction and no attach; and
constructing a wrapper around a pre-existing id keeps every
already-attached component in the store and leaves every pre-existing
record's field values unchanged. -/
theorem build_is_get_or_create (b : Binding) (t : EntityType) (m : Manager)
    (eid : EntityId) (hv : m.valid eid = true) :
    (∀ cid, m.getComp eid b.cls = some cid → b.build m eid = (m, cid)) ∧
    (m.getComp eid b.cls = none →
      b.build m eid =
        ({ m with heap := fupd m.heap m.nextCid ⟨b.cls, fun i => b.args.getD i 0⟩,
                  nextCid := m.nextCid + 1,
                  store := fupd m.store (eid.index, b.cls) (some m.nextCid) }, m.nextCid)) ∧
    (∀ ct cid, m.getComp eid ct = some cid →
      ((t.new m (some eid)).1).getComp eid ct = some cid) ∧
    (∀ cid f, cid < m.nextCid →
      ((t.new m (some eid)).1).readField cid f = m.readField cid f) := by
  refine ⟨fun cid h => build_of_found b m eid cid h, build_of_absent b m eid, ?_, ?_⟩
  · intro ct cid h
    simp only [Manager.getComp] at h ⊢
    have := buildAll_store_stable t.components m eid (eid.index, ct) cid h
    simpa [EntityType.new] using this
  · intro cid f h
    have := buildAll_heap_frame t.components m eid cid h
    simp [EntityType.new, Manager.readField, this]

/-- Witness for C1: on the freshly created entity (0,0), which owns no
`Position`, the binding of `Component(Position, 1, 2)` constructs and
attaches a record holding the stored default arguments. -/
theorem build_is_get_or_create_witness :
    (mgr1.valid eid1 = true) ∧
    (mgr1.getComp eid1 posBinding.cls = none) ∧
    (posBinding.build mgr1 eid1 =
      ({ mgr1 with
          heap := fupd mgr1.heap mgr1.nextCid
            ⟨posBinding.cls, fun i => posBinding.args.getD i 0⟩,
          nextCid := mgr1.nextCid + 1,
          store := fupd mgr1.store (eid1.index, posBinding.cls) (some mgr1.nextCid) },
       mgr1.nextCid)) :=
  ⟨rfl, rfl, (build_is_get_or_create posBinding testType mgr1 eid1 rfl).2.1 rfl⟩

/-! ### Claim C4: binding resolution is idempotent on identity -/

/-- C4: resolving the same binding twice on the same entity with no
intervening detach returns the identical underlying record (the same
component identity, not merely an equal value) and the second resolution
changes nothing. -/
theorem build_twice_same_identity (b : Binding) (m : Manager) (eid : EntityId)
    (hv : m.valid eid = true) :
    ((b.build (b.build m eid).1 eid).2 = (b.build m eid).2) ∧
    ((b.build (b.build m eid).1 eid).1 = (b.build m eid).1) := by
  have h := build_of_found b (b.build m eid).1 eid (b.build m eid).2
      (build_getComp_result b m eid)
  exact ⟨by rw [h], by rw [h]⟩

/-- Witness for C4 at the Position binding on entity (0,0). -/
theorem build_twice_same_identity_witness :
    (mgr1.valid eid1 = true) ∧
    ((posBinding.build (posBinding.build mgr1 eid1).1 eid1).2 =
      (posBinding.build mgr1 eid1).2) ∧
    ((posBinding.build (posBinding.build mgr1 eid1).1 eid1).1 =
      (posBinding.build mgr1 eid1).1) :=
  ⟨rfl, (build_twice_same_identity posBinding mgr1 eid1 rfl).1,
    (build_twice_same_identity posBinding mgr1 eid1 rfl).2⟩

/-! ### Claim C5: component types are independent -/

/-- C5: building or attaching a component of type A on an entity leaves
every store entry and every pre-existing record of any other type B
unchanged; attaches of distinct types commute; a later attach of the
same type replaces the earlier record. -/
theorem attach_types_independent (m : Manager) (eid e1 e2 : EntityId)
    (b : Binding) (A B c1 c2 : Nat) (hv : m.valid eid = true) (hAB : A ≠ B) :
    (b.cls = A → ∀ key : Nat × Nat, key.2 = B →
      (b.build m eid).1.store key = m.store key) ∧
    (b.cls = A → ∀ c, c < m.nextCid → (b.build m eid).1.heap c = m.heap c) ∧
    (∀ i : Nat, (m.attachCid eid A c1).store (i, B) = m.store (i, B)) ∧
    (∀ key : Nat × Nat,
      ((m.attachCid e1 A c1).attachCid e2 B c2).store key =
      ((m.attachCid e2 B c2).attachCid e1 A c1).store key) ∧
    (((m.attachCid eid A c1).attachCid eid A c2).store (eid.index, A) = some c2) := by
  refine ⟨?_, ?_, ?_, ?_, ?_⟩
  · intro hA key hkey
    refine build_store_frame b m eid key ?_
    rw [hkey, hA]
    exact fun h => hAB h.symm
  · intro hA c hc
    exact build_heap_frame b m eid c hc
  · intro i
    have hne : ((i, B) : Nat × Nat) ≠ (eid.index, A) := by
      intro hk
      exact hAB ((congrArg Prod.snd hk).symm)
    simp [Manager.attachCid, fupd_ne _ _ _ _ hne]
  · intro key
    have hne : ((e1.index, A) : Nat × Nat) ≠ (e2.index, B) := by
      intro hk
      exact hAB (congrArg Prod.snd hk)
    show fupd (fupd m.store (e1.index, A) (some c1)) (e2.index, B) (some c2) key =
         fupd (fupd m.store (e2.index, B) (some c2)) (e1.index, A) (some c1) key
    exact fupd_comm m.store _ _ _ _ hne key
  · simp [Manager.attachCid]

/-- Witness for C5 with component types 1 and 2 on entity (0,0): the
attach of type 1 leaves type 2's entry alone, and re-attaching type 1
replaces the record. -/
theorem attach_types_independent_witness :
    (mgr1.valid eid1 = true) ∧ ((1 : Nat) ≠ 2) ∧
    ((mgr1.attachCid eid1 1 5).store (0, 2) = mgr1.store (0, 2)) ∧
    (((mgr1.attachCid eid1 1 5).attachCid eid1 1 6).store (eid1.index, 1) = some 6) :=
  ⟨rfl, by decide,
    (attach_types_independent mgr1 eid1 eid1 eid1 posBinding 1 2 5 6 rfl (by decide)).2.2.1 0,
    (attach_types_independent mgr1 eid1 eid1 eid1 posBinding 1 2 5 6 rfl (by decide)).2.2.2.2⟩

end EntityX

namespace EntityX

/-! ### Lemmas about the insertion-ordered dict -/

theorem lookupAssoc_assocSet_same {α β : Type} [DecidableEq α]
    (d : List (α × β)) (k : α) (v : β) :
    lookupAssoc (assocSet d k v) k = some v := by
  induction d with
  | nil => simp [assocSet, lookupAssoc]
  | cons kv rest ih =>
      obtain ⟨k1, v1⟩ := kv
      by_cases h : k1 = k
      · simp [assocSet, h, lookupAssoc]
      · simp [assocSet, h, lookupAssoc, ih]

theorem lookupAssoc_assocSet_ne {α β : Type} [DecidableEq α]
    (d : List (α × β)) (k k2 : α) (v : β) (h : k2 ≠ k) :
    lookupAssoc (assocSet d k v) k2 = lookupAssoc d k2 := by
  induction d with
  | nil => simp [assocSet, lookupAssoc, Ne.symm h]
  | cons kv rest ih =>
      obtain ⟨k1, v1⟩ := kv
      by_cases h1 : k1 = k
      · subst h1
        simp [assocSet, lookupAssoc, Ne.symm h]
      · by_cases h2 : k1 = k2
        · subst h2
          simp [assocSet, h1, lookupAssoc]
        · simp [assocSet, h1, lookupAssoc, h2, ih]

theorem lookupAssoc_eq_none {α β : Type} [DecidableEq α]
    (e : List (α × β)) (k : α) (h : k ∉ e.map Prod.fst) :
    lookupAssoc e k = none := by
  induction e with
  | nil => rfl
  | cons kv rest ih =>
      simp only [List.map_cons, List.mem_cons] at h
      push_neg at h
      obtain ⟨h1, h2⟩ := h
      obtain ⟨k1, v1⟩ := kv
      simp only [lookupAssoc, if_neg (Ne.symm h1)]
      exact ih h2

theorem lookupAssoc_dictUpdate_not_mem {α β : Type} [DecidableEq α]
    (d e : List (α × β)) (k : α) (h : lookupAssoc e k = none) :
    lookupAssoc (dictUpdate d e) k = lookupAssoc d k := by
  induction e generalizing d with
  | nil => simp [dictUpdate]
  | cons kv rest ih =>
      obtain ⟨k1, v1⟩ := kv
      by_cases h1 : k1 = k
      · simp [lookupAssoc, h1] at h
      · simp only [lookupAssoc, if_neg h1] at h
        have hdu : dictUpdate d ((k1, v1) :: rest) = dictUpdate (assocSet d k1 v1) rest := rfl
        rw [hdu, ih (assocSet d k1 v1) h]
        exact lookupAssoc_assocSet_ne d k1 k v1 (fun hk => h1 hk.symm)

theorem lookupAssoc_dictUpdate_found {α β : Type} [DecidableEq α]
    (d e : List (α × β)) (k : α) (v : β)
    (h : lookupAssoc e k = some v) (hnd : (e.map Prod.fst).Nodup) :
    lookupAssoc (dictUpdate d e) k = some v := by
  induction e generalizing d with
  | nil => cases h
  | cons kv rest ih =>
      obtain ⟨k1, v1⟩ := kv
      rw [List.map_cons, List.nodup_cons] at hnd
      obtain ⟨hk1, hnd2⟩ := hnd
      by_cases h1 : k1 = k
      · subst h1
        simp [lookupAssoc] at h
        have hrest : lookupAssoc rest k1 = none := lookupAssoc_eq_none rest k1 hk1
        have hdu : dictUpdate d ((k1, v1) :: rest) = dictUpdate (assocSet d k1 v1) rest := rfl
        rw [hdu, lookupAssoc_dictUpdate_not_mem (assocSet d k1 v1) rest k1 hrest,
          lookupAssoc_assocSet_same, h]
      · simp only [lookupAssoc, if_neg h1] at h
        have hdu : dictUpdate d ((k1, v1) :: rest) = dictUpdate (assocSet d k1 v1) rest := rfl
        rw [hdu]
        exact ih (assocSet d k1 v1) h hnd2

end EntityX

namespace EntityX

/-! ### Claim C2: metaclass binding merge -/

/-- C2: the merged binding table computed at type-definition time equals
the fold of all ancestor-declared tables overlaid with the subtype's own
declarations, the subtype winning on any name collision: a name the
subtype declares resolves to the subtype's binding, a name it does not
declare resolves exactly as in the folded ancestor tables; in the
redeclaration scenario the subtype resolves x to its own component type
while the base type still resolves x to the base's; and every instance
construction traverses exactly the table stored on the type, with no
per-instance recomputation. -/
theorem metaclass_merge_components (bases : List EntityType)
    (own : List (String × Binding)) (k x : String) (bA bB : Binding)
    (hnd : (own.map Prod.fst).Nodup) :
    (∀ v, lookupAssoc own k = some v →
      lookupAssoc (defineEntityType bases own).components k = some v) ∧
    (lookupAssoc own k = none →
      lookupAssoc (defineEntityType bases own).components k =
        lookupAssoc ((bases.map EntityType.components).foldl dictUpdate []) k) ∧
    (lookupAssoc
        (defineEntityType [defineEntityType [] [(x, bA)]] [(x, bB)]).components x =
      some bB) ∧
    (lookupAssoc (defineEntityType [] [(x, bA)]).components x = some bA) ∧
    (∀ (t : EntityType) (m : Manager) (eido : Option EntityId),
      (t.new m eido).2.attrs.map Prod.fst = t.components.map Prod.fst) := by
  refine ⟨?_, ?_, ?_, ?_, ?_⟩
  · intro v h
    exact lookupAssoc_dictUpdate_found _ own k v h hnd
  · intro h
    exact lookupAssoc_dictUpdate_not_mem _ own k h
  · simp [defineEntityType, dictUpdate, assocSet, lookupAssoc]
  · simp [defineEntityType, dictUpdate, assocSet, lookupAssoc]
  · intro t m eido
    cases eido <;> simp [EntityType.new, buildAll_names]

/-- Witness for C2: a base declaring `x` bound to component type 1 and a
subtype redeclaring `x` bound to component type 2 resolve `x` to their
own bindings. -/
theorem metaclass_merge_components_witness :
    ((([("x", posBinding)] : List (String × Binding)).map Prod.fst).Nodup) ∧
    (lookupAssoc
        (defineEntityType [defineEntityType [] [("x", posBinding)]]
          [("x", ⟨2, []⟩)]).components "x" = some ⟨2, []⟩) ∧
    (lookupAssoc (defineEntityType [] [("x", posBinding)]).components "x" =
      some posBinding) :=
  ⟨by simp,
    (metaclass_merge_components [] [("x", posBinding)] "x" "x" posBinding ⟨2, []⟩
      (by simp)).2.2.1,
    (metaclass_merge_components [] [("x", posBinding)] "x" "x" posBinding ⟨2, []⟩
      (by simp)).2.2.2.1⟩

/-! ### Claim C8: deterministic per-type build order -/

/-- C8: the order in which binding names are built at instance
construction is a function of the type alone: two constructions of the
same type, from any two manager states, with or without supplied entity
ids, traverse the merged binding names in the same order. -/
theorem build_order_deterministic (t : EntityType) (m1 m2 : Manager)
    (o1 o2 : Option EntityId) :
    (t.new m1 o1).2.attrs.map Prod.fst = (t.new m2 o2).2.attrs.map Prod.fst := by
  cases o1 <;> cases o2 <;> simp [EntityType.new, buildAll_names]

/-! ### Claim C10: a supplied entity id suppresses allocation -/

/-- C10: constructing a wrapper with a supplied entity id (including the
`_from_raw_entity` path) never allocates: the wrapper binds exactly to
the supplied id and the manager's id bookkeeping (free pool, version
table, live bits, index counter) is untouched; with no id supplied, the
allocation step runs, binding the wrapper to the id `create` returns and
changing the id bookkeeping exactly as `create` does. -/
theorem supplied_id_never_allocates (t : EntityType) (m : Manager) (eid : EntityId) :
    ((t.new m (some eid)).2.entityId = eid) ∧
    ((t.new m (some eid)).1.freeList = m.freeList) ∧
    ((t.new m (some eid)).1.versionOf = m.versionOf) ∧
    ((t.new m (some eid)).1.aliveAt = m.aliveAt) ∧
    ((t.new m (some eid)).1.counter = m.counter) ∧
    (t.fromRawEntity m eid = t.new m (some eid)) ∧
    ((t.new m none).2.entityId = (m.create).2) ∧
    ((t.new m none).1.freeList = (m.create).1.freeList) ∧
    ((t.new m none).1.versionOf = (m.create).1.versionOf) ∧
    ((t.new m none).1.aliveAt = (m.create).1.aliveAt) ∧
    ((t.new m none).1.counter = (m.create).1.counter) := by
  obtain ⟨h1, h2, h3, h4⟩ := buildAll_bookkeeping t.components m eid
  obtain ⟨g1, g2, g3, g4⟩ := buildAll_bookkeeping t.components (m.create).1 (m.create).2
  exact ⟨rfl, h4, h2, h3, h1, rfl, rfl, g4, g2, g3, g1⟩

/-! ### Claim C9: same-type bindings alias the same record -/

theorem writeField_readField (m : Manager) (c f : Nat) (v : Int) :
    (m.writeField c f v).readField c f = v := by
  simp [Manager.writeField, Manager.readField]

/-- C9: when a type's table binds two names (given by positions i and j)
to the same component type, any one construction resolves them to the
identical underlying record, so a field mutation through the first name
is read back through the second: components are keyed per (entity,
component type), never per binding name. -/
theorem same_type_bindings_alias (t : EntityType) (m : Manager)
    (eido : Option EntityId) (i j : Nat)
    (hi : i < t.components.length) (hj : j < t.components.length)
    (hcl : (t.components.getD i ("", ⟨0, []⟩)).2.cls =
           (t.components.getD j ("", ⟨0, []⟩)).2.cls) :
    (((t.new m eido).2.attrs.getD i ("", 0)).2 =
     ((t.new m eido).2.attrs.getD j ("", 0)).2) ∧
    (∀ f v,
      (((t.new m eido).1.writeField ((t.new m eido).2.attrs.getD i ("", 0)).2 f v).readField
        ((t.new m eido).2.attrs.getD j ("", 0)).2 f) = v) := by
  have key : ∀ (m0 : Manager) (e : EntityId),
      ((buildAll m0 e t.components).2.getD i ("", 0)).2 =
      ((buildAll m0 e t.components).2.getD j ("", 0)).2 := by
    intro m0 e
    have ha := buildAll_cid_in_store t.components m0 e i hi
    have hb := buildAll_cid_in_store t.components m0 e j hj
    rw [hcl] at ha
    rw [ha] at hb
    exact Option.some.inj hb
  have hcid : ((t.new m eido).2.attrs.getD i ("", 0)).2 =
      ((t.new m eido).2.attrs.getD j ("", 0)).2 := by
    cases eido with
    | some e => exact key m e
    | none => exact key (m.create).1 (m.create).2
  refine ⟨hcid, fun f v => ?_⟩
  rw [← hcid]
  exact writeField_readField _ _ f v

/-- Witness for C9: the `DeepSubclassTest2`-style type binding `position`
and `position2` to the same component type resolves both names to the
same record on a fresh construction around entity (0,0). -/
theorem same_type_bindings_alias_witness :
    (0 < dupType.components.length) ∧ (1 < dupType.components.length) ∧
    ((dupType.components.getD 0 ("", ⟨0, []⟩)).2.cls =
     (dupType.components.getD 1 ("", ⟨0, []⟩)).2.cls) ∧
    (((dupType.new mgr1 (some eid1)).2.attrs.getD 0 ("", 0)).2 =
     ((dupType.new mgr1 (some eid1)).2.attrs.getD 1 ("", 0)).2) :=
  ⟨by decide, by decide, rfl,
    (same_type_bindings_alias dupType mgr1 (some eid1) 0 1 (by decide) (by decide) rfl).1⟩

end EntityX

namespace EntityX

/-! ### Lemmas about event dispatch -/

theorem dispatchTo_append (l1 l2 : List (Nat × Nat)) (et : Nat) :
    dispatchTo (l1 ++ l2) et = dispatchTo l1 et ++ dispatchTo l2 et := by
  induction l1 with
  | nil => simp [dispatchTo]
  | cons p rest ih =>
      obtain ⟨t, r⟩ := p
      by_cases h : t = et <;> simp [dispatchTo, h, ih]

theorem dispatchTo_eq_filter (l : List (Nat × Nat)) (et : Nat) :
    dispatchTo l et = (l.filter (fun p => p.1 == et)).map Prod.snd := by
  induction l with
  | nil => simp [dispatchTo]
  | cons p rest ih =>
      obtain ⟨t, r⟩ := p
      by_cases h : t = et <;> simp [dispatchTo, h, List.filter_cons, ih]

theorem dispatchTo_after_remove (l : List (Nat × Nat)) (et r : Nat) :
    dispatchTo (l.filter (fun p => !(p.1 == et && p.2 == r))) et =
      (dispatchTo l et).filter (fun x => !(x == r)) := by
  induction l with
  | nil => simp [dispatchTo]
  | cons p rest ih =>
      obtain ⟨t, r1⟩ := p
      simp only [Bool.not_and] at ih
      by_cases h : t = et
      · subst h
        by_cases h2 : r1 = r
        · subst h2
          simp [dispatchTo, List.filter_cons, ih]
        · simp [dispatchTo, List.filter_cons, h2, ih]
      · simp [dispatchTo, List.filter_cons, h, ih]

/-! ### Claim C6: emit invokes the registered receivers for E, in order -/

/-- C6: the invocation sequence of an emit for event type E is exactly
the registration-ordered snapshot of the receivers registered for E —
each registration invoked once, none of any other type (no supertype or
subtype fan-out, event types being atomic tags); subscribing a receiver
for E appends it to that sequence while subscribing for a different type
leaves it unchanged; and after unsubscribing a receiver, a subsequent
emit invokes exactly the remaining receivers, still in registration
order. -/
theorem emit_in_registration_order (bus : EventBus) (et et2 r : Nat)
    (hne : et2 ≠ et) :
    (bus.emit et = (bus.subs.filter (fun p => p.1 == et)).map Prod.snd) ∧
    ((bus.subscribe et r).emit et = bus.emit et ++ [r]) ∧
    ((bus.subscribe et2 r).emit et = bus.emit et) ∧
    ((bus.unsubscribe et r).emit et = (bus.emit et).filter (fun x => !(x == r))) := by
  refine ⟨dispatchTo_eq_filter bus.subs et, ?_, ?_, ?_⟩
  · show dispatchTo (bus.subs ++ [(et, r)]) et = dispatchTo bus.subs et ++ [r]
    rw [dispatchTo_append]
    simp [dispatchTo]
  · show dispatchTo (bus.subs ++ [(et2, r)]) et = dispatchTo bus.subs et
    rw [dispatchTo_append]
    simp [dispatchTo, hne]
  · exact dispatchTo_after_remove bus.subs et r

/-- Witness for C6 at the three-receiver scenario: receivers 1, 2, 3
registered for type 0; emitting invokes the snapshot in order, and after
unsubscribing receiver 2 an emit invokes only 1 and 3. -/
theorem emit_in_registration_order_witness :
    ((7 : Nat) ≠ 0) ∧
    (busFix.emit 0 = (busFix.subs.filter (fun p => p.1 == 0)).map Prod.snd) ∧
    ((busFix.subscribe 7 4).emit 0 = busFix.emit 0) ∧
    ((busFix.unsubscribe 0 2).emit 0 = (busFix.emit 0).filter (fun x => !(x == 2))) :=
  ⟨by decide,
    (emit_in_registration_order busFix 0 7 2 (by decide)).1,
    (emit_in_registration_order busFix 0 7 4 (by decide)).2.2.1,
    (emit_in_registration_order busFix 0 7 2 (by decide)).2.2.2⟩

end EntityX
